import Mathlib

/-!
Verification of the shared request-execution core of the `lunos-tech/client-js`
SDK, shallowly embedded in Lean 4.

The embedding follows the TypeScript source:
  * `src/services/base/BaseService.ts` — request pipeline, retry loop
    (`makeRequestWithRetry`), error classification (`handleErrorResponse`),
    backoff (`calculateRetryDelay`), fallback-model substitution
    (`shouldTryFallback`, `tryWithFallbackModel`, `tryStreamWithFallbackModel`),
    header assembly (`makeRequest`).
  * `src/utils/streaming.ts` — the SSE stream decoder
    (`StreamProcessor.processStream`).

Modelling conventions:
  * JS strings are Lean `String`s; the stream decoder works on `List Char`
    (the claims exercise ASCII input, where bytes and characters coincide,
    so the streaming-safe UTF-8 decode is the identity on chunk boundaries).
  * JSON numbers are modelled as integers; no claim exercises fractional
    payloads.  `JSON.parse` / `JSON.stringify` are modelled by `parseJson` /
    `stringifyJson` below, including JS object semantics for duplicate keys
    (last value wins, first position kept) and property assignment
    (overwrite in place, else append).
  * Thrown JS exceptions are values of type `Err`; a function that can throw
    returns `Except Err _`.  The JS class hierarchy is flattened into the
    `ErrClass` discriminant (`instanceof AuthenticationError` ⇔
    `cls = .authentication`, etc.).
  * `fetch` is the injected transport.  It is modelled as a pure function of
    the call index (transport calls are strictly sequential), the URL and the
    `RequestInit`; retry/fallback instrumentation additionally returns the
    number of transport invocations.
  * Awaited backoff delays do not influence results and are modelled only by
    `calculateRetryDelay` itself.
-/

/-- JS `NaN`-aware integer: the result of `parseInt`. -/
inductive JsNumber where
  | nan
  | int (n : Int)
deriving DecidableEq, Repr

/-- JSON values (numbers restricted to integers, see module comment). -/
inductive Json where
  | null
  | bool (b : Bool)
  | num (n : Int)
  | str (s : String)
  | arr (elems : List Json)
  | obj (fields : List (String × Json))

/-- JS object property write: overwrite the value at `k` keeping its position
(first occurrence), else append the new property at the end.  This is the
semantics of both `body.model = x` and of duplicate keys during `JSON.parse`
(the parser inserts each key with this function, so later duplicates
overwrite earlier values). -/
def jsSetField : List (String × Json) → String → Json → List (String × Json)
  | [], k, v => [(k, v)]
  | (k', v') :: rest, k, v =>
    if k' = k then (k', v) :: rest else (k', v') :: jsSetField rest k v

/-- Property read on a JSON value (`x.k`); `none` when absent or not an
object. -/
def jsGetField : Json → String → Option Json
  | .obj fields, k => (fields.find? (fun p => p.fst = k)).map Prod.snd
  | _, _ => none

/-- Array indexing on a JSON value (`x[i]`). -/
def jsIndex : Json → Nat → Option Json
  | .arr elems, i => elems.get? i
  | _, _ => none

/-- `chunk.choices?.[0]?.delta?.content` as read by the stream processor. -/
def chunkContent (j : Json) : Option Json :=
  (jsGetField j "choices").bind (fun cs => (jsIndex cs 0).bind
    (fun c => (jsGetField c "delta").bind (fun d => jsGetField d "content")))

/-- JSON insignificant whitespace. -/
def skipWs (cs : List Char) : List Char :=
  cs.dropWhile (fun c => c = ' ' || c = '\t' || c = '\n' || c = '\r')

def hexVal? (c : Char) : Option Nat :=
  if '0' ≤ c && c ≤ '9' then some (c.toNat - 48)
  else if 'a' ≤ c && c ≤ 'f' then some (c.toNat - 87)
  else if 'A' ≤ c && c ≤ 'F' then some (c.toNat - 55)
  else none

/-- Body of a JSON string literal, after the opening quote; returns the
decoded characters and the input remaining after the closing quote. -/
def parseStringBody : Nat → List Char → Option (List Char × List Char)
  | 0, _ => none
  | _, [] => none
  | fuel + 1, c :: rest =>
    if c = '"' then some ([], rest)
    else if c = '\\' then
      match rest with
      | [] => none
      | e :: rest2 =>
        let simpleEsc : Option Char :=
          if e = '"' then some '"'
          else if e = '\\' then some '\\'
          else if e = '/' then some '/'
          else if e = 'b' then some '\x08'
          else if e = 'f' then some '\x0c'
          else if e = 'n' then some '\n'
          else if e = 'r' then some '\r'
          else if e = 't' then some '\t'
          else none
        match simpleEsc with
        | some d => (parseStringBody fuel rest2).map (fun p => (d :: p.1, p.2))
        | none =>
          if e = 'u' then
            match rest2 with
            | h1 :: h2 :: h3 :: h4 :: rest3 =>
              match hexVal? h1, hexVal? h2, hexVal? h3, hexVal? h4 with
              | some a, some b, some c3, some d =>
                (parseStringBody fuel rest3).map
                  (fun p => (Char.ofNat (((a * 16 + b) * 16 + c3) * 16 + d) :: p.1, p.2))
              | _, _, _, _ => none
            | _ => none
          else none
    else (parseStringBody fuel rest).map (fun p => (c :: p.1, p.2))

def digitsToNat (ds : List Char) : Nat :=
  ds.foldl (fun acc c => acc * 10 + (c.toNat - 48)) 0

/-- Integer literal (JSON numbers are modelled as integers; a fractional or
exponent part makes the parse fail instead of producing a float). -/
def parseIntLit (cs : List Char) : Option (Int × List Char) :=
  let (sign, cs') : Int × List Char :=
    match cs with
    | '-' :: rest => (-1, rest)
    | _ => (1, cs)
  let ds := cs'.takeWhile Char.isDigit
  if ds.isEmpty then none
  else
    let rest := cs'.drop ds.length
    match rest with
    | '.' :: _ => none
    | 'e' :: _ => none
    | 'E' :: _ => none
    | _ => some (sign * (digitsToNat ds : Int), rest)

mutual

/-- Recursive-descent model of `JSON.parse` (one value; returns the rest of
the input).  Duplicate object keys follow JS semantics via `jsSetField`. -/
def parseValue : Nat → List Char → Option (Json × List Char)
  | 0, _ => none
  | fuel + 1, cs =>
    match skipWs cs with
    | 'n' :: 'u' :: 'l' :: 'l' :: rest => some (.null, rest)
    | 't' :: 'r' :: 'u' :: 'e' :: rest => some (.bool true, rest)
    | 'f' :: 'a' :: 'l' :: 's' :: 'e' :: rest => some (.bool false, rest)
    | '"' :: rest => (parseStringBody (fuel + 1) rest).map (fun p => (.str (String.mk p.1), p.2))
    | '[' :: rest =>
      (match skipWs rest with
       | ']' :: rest2 => some (.arr [], rest2)
       | _ => parseArrayRest fuel rest [])
    | '\x7b' :: rest =>
      (match skipWs rest with
       | '\x7d' :: rest2 => some (.obj [], rest2)
       | _ => parseMembersRest fuel rest [])
    | cs' => (parseIntLit cs').map (fun p => (.num p.1, p.2))

/-- `value (',' value)* ']'` after the opening bracket of a non-empty array. -/
def parseArrayRest : Nat → List Char → List Json → Option (Json × List Char)
  | 0, _, _ => none
  | fuel + 1, cs, acc =>
    (parseValue fuel cs).bind (fun p =>
      match skipWs p.2 with
      | ',' :: rest2 => parseArrayRest fuel rest2 (acc ++ [p.1])
      | ']' :: rest2 => some (.arr (acc ++ [p.1]), rest2)
      | _ => none)

/-- `string ':' value (',' member)* '\x7d'` inside a non-empty object. -/
def parseMembersRest : Nat → List Char → List (String × Json) → Option (Json × List Char)
  | 0, _, _ => none
  | fuel + 1, cs, acc =>
    match skipWs cs with
    | '"' :: rest =>
      (parseStringBody (fuel + 1) rest).bind (fun kp =>
        match skipWs kp.2 with
        | ':' :: rest3 =>
          (parseValue fuel rest3).bind (fun vp =>
            let acc' := jsSetField acc (String.mk kp.1) vp.1
            match skipWs vp.2 with
            | ',' :: rest5 => parseMembersRest fuel rest5 acc'
            | '\x7d' :: rest5 => some (.obj acc', rest5)
            | _ => none)
        | _ => none)
    | _ => none

end

/-- `JSON.parse` on a character list: the whole input must be one value
(possibly surrounded by whitespace); `none` models a thrown `SyntaxError`. -/
def parseJsonChars (cs : List Char) : Option Json :=
  (parseValue (2 * cs.length + 8) cs).bind (fun p =>
    if (skipWs p.2).isEmpty then some p.1 else none)

/-- `JSON.parse` on a string. -/
def parseJson (s : String) : Option Json :=
  parseJsonChars s.data

/-- `JSON.stringify` escaping for one character inside a string literal. -/
def escapeJsonChar (c : Char) : List Char :=
  if c = '"' then ['\\', '"']
  else if c = '\\' then ['\\', '\\']
  else if c = '\x08' then ['\\', 'b']
  else if c = '\x0c' then ['\\', 'f']
  else if c = '\n' then ['\\', 'n']
  else if c = '\r' then ['\\', 'r']
  else if c = '\t' then ['\\', 't']
  else if c.toNat < 32 then
    let d1 := c.toNat / 16
    let d2 := c.toNat % 16
    ['\\', 'u', '0', '0',
     Char.ofNat (if d1 < 10 then 48 + d1 else 87 + d1),
     Char.ofNat (if d2 < 10 then 48 + d2 else 87 + d2)]
  else [c]

def quoteJsonString (s : String) : String :=
  "\"" ++ String.mk (s.data.map escapeJsonChar).flatten ++ "\""

mutual

/-- Model of `JSON.stringify` (no indentation, insertion order of keys). -/
def stringifyJson : Json → String
  | .null => "null"
  | .bool true => "true"
  | .bool false => "false"
  | .num n => toString n
  | .str s => quoteJsonString s
  | .arr elems => "[" ++ stringifyElems elems ++ "]"
  | .obj fields => "\x7b" ++ stringifyFields fields ++ "\x7d"

def stringifyElems : List Json → String
  | [] => ""
  | [x] => stringifyJson x
  | x :: y :: xs => stringifyJson x ++ "," ++ stringifyElems (y :: xs)

def stringifyFields : List (String × Json) → String
  | [] => ""
  | [(k, v)] => quoteJsonString k ++ ":" ++ stringifyJson v
  | (k, v) :: f :: fs => quoteJsonString k ++ ":" ++ stringifyJson v ++ "," ++ stringifyFields (f :: fs)

end

/-- JS truthiness of a JSON value. -/
def jsTruthy : Json → Bool
  | .null => false
  | .bool b => b
  | .num n => decide (n ≠ 0)
  | .str s => decide (s ≠ "")
  | .arr _ => true
  | .obj _ => true

mutual

/-- JS `String(v)` coercion (used when a response body's `error.message`
field is not already a string).  Array elements follow `Array.toString`
(`null` renders empty, elements joined by commas). -/
def jsToString : Json → String
  | .null => "null"
  | .bool true => "true"
  | .bool false => "false"
  | .num n => toString n
  | .str s => s
  | .arr elems => jsToStringElems elems
  | .obj _ => "[object Object]"

def jsToStringElems : List Json → String
  | [] => ""
  | [.null] => ""
  | [x] => jsToString x
  | .null :: y :: xs => "," ++ jsToStringElems (y :: xs)
  | x :: y :: xs => jsToString x ++ "," ++ jsToStringElems (y :: xs)

end

/-- Discriminant of the JS error-class hierarchy in
`src/client/errors/LunosError.ts`: `AuthenticationError`, `ValidationError`,
`RateLimitError`, `NetworkError`, `APIError`, plain `LunosError`, and
non-Lunos JS errors (`SyntaxError`, `TypeError`, ...) as `plain`. -/
inductive ErrClass where
  | authentication
  | validation
  | rateLimit
  | network
  | api
  | lunos
  | plain
deriving DecidableEq, Repr

/-- A thrown error value.  `retryAfter` models the `details.retryAfter`
payload of `RateLimitError`; the free-form `details` payload of the other
constructors is not inspected by any claim and is omitted. -/
structure Err where
  cls : ErrClass
  message : String
  status : Nat := 0
  code : Option String := none
  retryAfter : Option JsNumber := none
deriving DecidableEq, Repr

/-- The parts of a `fetch` `Response` the pipeline reads: `status`,
`statusText`, `headers.get "retry-after"`, the parsed JSON body (`none`
models `response.json()` rejecting), and – for the streaming path – the
byte-stream body as a list of chunks. -/
structure Response where
  status : Nat
  statusText : String := ""
  retryAfterHeader : Option String := none
  jsonBody : Option Json := none
  bodyStream : Option (List (List Char)) := none

/-- `response.ok`: status in the 2xx range. -/
def Response.isOk (r : Response) : Bool :=
  decide (200 ≤ r.status) && decide (r.status < 300)

/-- JS `parseInt(s)` with an undefined radix: leading whitespace skipped,
optional sign, `0x`/`0X` prefix selects base 16, longest digit prefix,
`NaN` when no digit follows. -/
def parseIntJs (s : String) : JsNumber :=
  let cs := s.data.dropWhile Char.isWhitespace
  let signSplit : Int × List Char :=
    match cs with
    | '-' :: r => (-1, r)
    | '+' :: r => (1, r)
    | _ => (1, cs)
  match signSplit.2 with
  | '0' :: 'x' :: r =>
    let ds := r.takeWhile (fun c => (hexVal? c).isSome)
    if ds.isEmpty then .nan
    else .int (signSplit.1 * (ds.foldl (fun acc c => acc * 16 + (hexVal? c).getD 0) 0 : Nat))
  | '0' :: 'X' :: r =>
    let ds := r.takeWhile (fun c => (hexVal? c).isSome)
    if ds.isEmpty then .nan
    else .int (signSplit.1 * (ds.foldl (fun acc c => acc * 16 + (hexVal? c).getD 0) 0 : Nat))
  | rest =>
    let ds := rest.takeWhile Char.isDigit
    if ds.isEmpty then .nan else .int (signSplit.1 * (digitsToNat ds : Int))

/-- `errorData.error?.message || fallback` with the two fallback texts of
`handleErrorResponse`: when the body is not JSON the message is
`HTTP <status>: <statusText>`, when the JSON body has no truthy
`error.message` it is `HTTP <status>`. -/
def errorMessageOf (r : Response) : String :=
  match r.jsonBody with
  | none => "HTTP " ++ toString r.status ++ ": " ++ r.statusText
  | some b =>
    match (jsGetField b "error").bind (fun e => jsGetField e "message") with
    | some m => if jsTruthy m then jsToString m else "HTTP " ++ toString r.status
    | none => "HTTP " ++ toString r.status

/-- `BaseService.handleErrorResponse`: classifies one non-2xx response and
throws; the returned `Err` is the thrown value (the function never returns
normally in the source, which the totality of this map reflects).  The
`switch` over `response.status` is rendered as an equality chain. -/
def handleErrorResponse (r : Response) : Err :=
  let msg := errorMessageOf r
  if r.status = 401 then
    { cls := .authentication, message := msg, status := 401, code := some "AUTHENTICATION_ERROR" }
  else if r.status = 429 then
    { cls := .rateLimit, message := msg, status := 429, code := some "RATE_LIMIT_ERROR",
      retryAfter :=
        match r.retryAfterHeader with
        | some h => if h = "" then none else some (parseIntJs h)
        | none => none }
  else if r.status = 400 then
    { cls := .lunos, message := msg, status := 400, code := some "BAD_REQUEST" }
  else if r.status = 403 then
    { cls := .lunos, message := msg, status := 403, code := some "FORBIDDEN" }
  else if r.status = 404 then
    { cls := .lunos, message := msg, status := 404, code := some "NOT_FOUND" }
  else if r.status = 500 || r.status = 502 || r.status = 503 || r.status = 504 then
    { cls := .lunos, message := msg, status := r.status, code := some "SERVER_ERROR" }
  else
    { cls := .api, message := msg, status := r.status }

/-- An abort/cancellation handle: either caller-supplied or derived from the
effective timeout by `AbortSignal.timeout`. -/
inductive SignalV where
  | external (id : Nat)
  | timeoutSignal (ms : Nat)
deriving DecidableEq, Repr

/-- The `RequestInit` fields the pipeline reads or writes. -/
structure RequestInit where
  method : Option String := none
  headers : List (String × String) := []
  body : Option String := none
  signal : Option SignalV := none

/-- Result of one `fetch` call: a response, or a thrown error. -/
inductive FetchResult where
  | resp (r : Response)
  | thrown (e : Err)

/-- The injected transport (`config.fetch || fetch`), as a pure function of
the sequential call index, the URL and the request. -/
def Transport : Type := Nat → String → RequestInit → FetchResult

/-- The error thrown by `JSON.parse` / `response.json()` on malformed input
(a `SyntaxError`, not a Lunos class). -/
def jsonSyntaxError : Err := { cls := .plain, message := "Unexpected token in JSON" }

/-- `TypeError` from `body.model = ...` when the parsed body is `null`. -/
def nullAssignError : Err := { cls := .plain, message := "Cannot set properties of null" }

/-- One buffered-JSON attempt: `fetch`, `handleErrorResponse` on non-2xx,
then `response.json()`. -/
def attemptOnce (fr : FetchResult) : Except Err Json :=
  match fr with
  | .thrown e => .error e
  | .resp r =>
    if r.isOk then
      match r.jsonBody with
      | some j => .ok j
      | none => .error jsonSyntaxError
    else .error (handleErrorResponse r)

/-- `error instanceof AuthenticationError || error instanceof ValidationError`. -/
def isAuthOrVal (e : Err) : Bool :=
  decide (e.cls = .authentication) || decide (e.cls = .validation)

def listInfixB (sub hay : List Char) : Bool :=
  match hay with
  | [] => sub.isEmpty
  | b :: bs => sub.isPrefixOf (b :: bs) || listInfixB sub bs

/-- JS `hay.includes(sub)`. -/
def strIncludes (hay sub : String) : Bool := listInfixB sub.data hay.data

/-- The fixed keyword set of `BaseService.shouldTryFallback`. -/
def modelErrorKeywords : List String :=
  ["model", "model not found", "model unavailable", "model error",
   "invalid model", "model not available", "model temporarily unavailable"]

/-- `message.toLowerCase()` (character-wise, which agrees with JS on the
ASCII messages involved). -/
def strToLower (s : String) : String := String.mk (s.data.map Char.toLower)

/-- `shouldTryFallback`: the lower-cased error message contains one of the
model keywords. -/
def shouldTryFallback (e : Err) : Bool :=
  modelErrorKeywords.any (fun k => strIncludes (strToLower e.message) k)

/-- `body.model = fallbackModel` after `JSON.parse(options.body)`, with JS
semantics per shape of the parsed value: objects get the property written
(in place or appended), `null` throws a `TypeError`, arrays and primitives
are unchanged after re-serialization (an array expando property is dropped
by `JSON.stringify`; property writes on primitives are silently ignored). -/
def jsAssignModel (j : Json) (fallbackModel : String) : Except Err Json :=
  match j with
  | .obj fields => .ok (.obj (jsSetField fields "model" (.str fallbackModel)))
  | .null => .error nullAssignError
  | other => .ok other

/-- The request-rewriting step shared by `tryWithFallbackModel` and
`tryStreamWithFallbackModel`: parse `options.body`, substitute the model,
re-serialize, and keep every other `RequestInit` field.  An absent body
models `JSON.parse(undefined)` throwing. -/
def fallbackOptions (opts : RequestInit) (fallbackModel : String) : Except Err RequestInit :=
  match opts.body with
  | none => .error jsonSyntaxError
  | some bodyStr =>
    match parseJson bodyStr with
    | none => .error jsonSyntaxError
    | some bodyJson =>
      (jsAssignModel bodyJson fallbackModel).map (fun newBody =>
        { opts with body := some (stringifyJson newBody) })

/-- `BaseService.tryWithFallbackModel`: one further buffered attempt with the
rewritten body; no retry, no further fallback; errors are rethrown
unchanged.  The second component counts transport invocations. -/
def tryWithFallbackModel (t : Transport) (callIdx : Nat) (url : String)
    (opts : RequestInit) (fallbackModel : String) : Except Err Json × Nat :=
  match fallbackOptions opts fallbackModel with
  | .error e => (.error e, 0)
  | .ok fbOpts => (attemptOnce (t callIdx url fbOpts), 1)

/-- `LunosError("No response body for streaming request", 0)`. -/
def noStreamBodyError : Err :=
  { cls := .lunos, message := "No response body for streaming request", status := 0 }

/-- The post-fetch handling of one streaming attempt: `handleErrorResponse`
on non-2xx, then the `response.body` null check. -/
def streamOnce (fr : FetchResult) : Except Err (List (List Char)) :=
  match fr with
  | .thrown e => .error e
  | .resp r =>
    if r.isOk then
      match r.bodyStream with
      | some s => .ok s
      | none => .error noStreamBodyError
    else .error (handleErrorResponse r)

/-- `BaseService.tryStreamWithFallbackModel`: the streaming variant of the
fallback attempt (same body rewrite, one fetch, stream handling, errors
rethrown unchanged). -/
def tryStreamWithFallbackModel (t : Transport) (callIdx : Nat) (url : String)
    (opts : RequestInit) (fallbackModel : String) : Except Err (List (List Char)) × Nat :=
  match fallbackOptions opts fallbackModel with
  | .error e => (.error e, 0)
  | .ok fbOpts => (streamOnce (t callIdx url fbOpts), 1)

/-- JS truthiness of `fallbackModel` in
`if (fallbackModel && this.shouldTryFallback(error))`. -/
def fbTruthy : Option String → Bool
  | some s => decide (s ≠ "")
  | none => false

/-- The loop body of `BaseService.makeRequestWithRetry`.  `att` is the
current 0-based attempt index and `remaining = maxRetries - att`, so
`remaining = 0` exactly when `attempt === retryConfig.maxRetries`.  Errors
classified Authentication/Validation are rethrown before the retry check;
on the final attempt a truthy fallback model plus a model-related message
divert to `tryWithFallbackModel`, otherwise the last error is thrown.  The
awaited backoff delay does not influence the result and is not recorded
here (see `calculateRetryDelay`).  The second component counts transport
invocations. -/
def goRetry (t : Transport) (url : String) (opts : RequestInit)
    (fallbackModel : Option String) : Nat → Nat → Except Err Json × Nat
  | att, remaining =>
    match attemptOnce (t att url opts) with
    | .ok v => (.ok v, 1)
    | .error e =>
      if isAuthOrVal e then (.error e, 1)
      else
        match remaining with
        | 0 =>
          if fbTruthy fallbackModel && shouldTryFallback e then
            let p := tryWithFallbackModel t (att + 1) url opts (fallbackModel.getD "")
            (p.1, 1 + p.2)
          else (.error e, 1)
        | rem + 1 =>
          let p := goRetry t url opts fallbackModel (att + 1) rem
          (p.1, 1 + p.2)

/-- `BaseService.makeRequestWithRetry`. -/
def makeRequestWithRetry (t : Transport) (url : String) (opts : RequestInit)
    (maxRetries : Nat) (fallbackModel : Option String) : Except Err Json × Nat :=
  goRetry t url opts fallbackModel 0 maxRetries

/-- `RetryConfig` from `src/types/common.ts`. -/
structure RetryConfig where
  maxRetries : Nat
  baseDelay : Nat
  maxDelay : Nat
  exponentialBackoff : Bool
  retryStatusCodes : List Nat
deriving DecidableEq, Repr

/-- `BaseService.calculateRetryDelay`. -/
def calculateRetryDelay (attempt : Nat) (rc : RetryConfig) : Nat :=
  if !rc.exponentialBackoff then rc.baseDelay
  else min (rc.baseDelay * 2 ^ attempt) rc.maxDelay

/-- `LunosConfig` (the `ClientConfig` variant that carries `fallback_model`
and the application identity used by `DEFAULT_CONFIG` and `BaseService`). -/
structure LunosConfig where
  baseUrl : String
  apiKey : String
  timeout : Nat
  retries : Nat
  retryDelay : Nat
  fallback_model : Option String := none
  headers : List (String × String) := []
  appId : Option String := none
  debug : Bool := false
deriving DecidableEq, Repr

/-- Per-call `RequestOptions`. -/
structure RequestOptions where
  timeout : Option Nat := none
  headers : List (String × String) := []
  signal : Option SignalV := none
  fallback_model : Option String := none
  appId : Option String := none
deriving DecidableEq, Repr

/-- `DEFAULT_CONFIG` from `src/client/config/DefaultConfig.ts`. -/
def DEFAULT_CONFIG : LunosConfig :=
  { baseUrl := "https://api.lunos.tech", apiKey := "", timeout := 60000,
    retries := 3, retryDelay := 1000, fallback_model := none,
    appId := some "Unknown", debug := false }

/-- JS `a || b` on optional strings (the empty string is falsy). -/
def jsOrStr (a b : Option String) : Option String :=
  match a with
  | some s => if s = "" then b else some s
  | none => b

/-- JS `a || b` on an optional number with a number default (0 is falsy). -/
def jsOrNat (a : Option Nat) (b : Nat) : Nat :=
  match a with
  | some n => if n = 0 then b else n
  | none => b

/-- JS object property write for string records (same semantics as
`jsSetField`). -/
def jsRecordSet : List (String × String) → String → String → List (String × String)
  | [], k, v => [(k, v)]
  | (k', v') :: rest, k, v =>
    if k' = k then (k', v) :: rest else (k', v') :: jsRecordSet rest k v

/-- JS object spread `\x7b...a, ...b\x7d` for string records. -/
def jsSpread (a b : List (String × String)) : List (String × String) :=
  b.foldl (fun acc p => jsRecordSet acc p.1 p.2) a

def headerLookup (l : List (String × String)) (k : String) : Option String :=
  (l.find? (fun p => p.1 = k)).map Prod.snd

/-- The header merge of `BaseService.makeRequest` (also `makeStreamRequest`
and `makeRawRequest`): base headers, then config headers, then per-call
headers, then the `X-App-ID` write guarded by
`const appId = requestOptions.appId || this.config.appId; if (appId) ...`. -/
def buildHeaders (cfg : LunosConfig) (ro : RequestOptions) : List (String × String) :=
  let base := [("Content-Type", "application/json"),
               ("Authorization", "Bearer " ++ cfg.apiKey)]
  let merged := jsSpread (jsSpread base cfg.headers) ro.headers
  match jsOrStr ro.appId cfg.appId with
  | some a => if a = "" then merged else jsRecordSet merged "X-App-ID" a
  | none => merged

/-- The `RetryConfig` literal built inside `BaseService.makeRequest`. -/
def buildRetryConfig (cfg : LunosConfig) : RetryConfig :=
  { maxRetries := cfg.retries, baseDelay := cfg.retryDelay, maxDelay := 10000,
    exponentialBackoff := true, retryStatusCodes := [408, 429, 500, 502, 503, 504] }

/-- `BaseService.makeRequest` (buffered-JSON call shape): URL and header
assembly, timeout-derived or caller-supplied cancellation signal, effective
fallback model (per-call over config), then the retry loop. -/
def makeRequest (t : Transport) (cfg : LunosConfig) (endpoint : String)
    (options : RequestInit) (ro : RequestOptions) : Except Err Json × Nat :=
  let url := cfg.baseUrl ++ endpoint
  let timeout := jsOrNat ro.timeout cfg.timeout
  let headers := buildHeaders cfg ro
  let effSignal : SignalV :=
    match ro.signal with
    | some s => s
    | none => .timeoutSignal timeout
  let opts : RequestInit := { options with headers := headers, signal := some effSignal }
  let rc := buildRetryConfig cfg
  goRetry t url opts (jsOrStr ro.fallback_model cfg.fallback_model) 0 rc.maxRetries

/-- `this.buffer += decode(chunk); const lines = this.buffer.split("\n");
this.buffer = lines.pop() || ""` — complete lines and the trailing
fragment of a character sequence. -/
def linesAndRest : List Char → List (List Char) × List Char
  | [] => ([], [])
  | c :: cs =>
    let p := linesAndRest cs
    if c = '\n' then ([] :: p.1, p.2)
    else
      match p.1 with
      | [] => ([], c :: p.2)
      | l :: ls => ((c :: l) :: ls, p.2)

/-- `line.trim() === ""`. -/
def isBlankLine (l : List Char) : Bool := l.all Char.isWhitespace

/-- The literal `"data: "` line marker. -/
def dataMarker : List Char := "data: ".data

/-- The terminal sentinel `"[DONE]"`. -/
def doneToken : List Char := "[DONE]".data

/-- The `for (const line of lines)` body of `StreamProcessor.processStream`
on the completed/delivered-frames part of the state: blank lines are
skipped, `data: ` lines are stripped, the `[DONE]` payload sets `completed`
and `break`s (the remaining lines of this chunk are dropped), any other
payload is `JSON.parse`d — successes are delivered to `onChunk` (appended
to the frame list), parse failures are swallowed. -/
def handleLines : Bool × List Json → List (List Char) → Bool × List Json
  | s, [] => s
  | (cp, fs), l :: ls =>
    if isBlankLine l then handleLines (cp, fs) ls
    else if dataMarker.isPrefixOf l then
      let d := l.drop 6
      if d = doneToken then (true, fs)
      else
        match parseJsonChars d with
        | some j => handleLines (cp, fs ++ [j]) ls
        | none => handleLines (cp, fs) ls
    else handleLines (cp, fs) ls

/-- Decoder state across chunks: the pending line fragment, the `completed`
flag, and the frames delivered to `onChunk` so far (in delivery order). -/
structure StreamState where
  buffer : List Char
  completed : Bool
  frames : List Json

/-- One iteration of the `while (true)` read loop for a non-final chunk:
append the chunk to the buffer, split off complete lines, keep the last
fragment, and run the line loop. -/
def processOneChunk (st : StreamState) (chunk : List Char) : StreamState :=
  let p := linesAndRest (st.buffer ++ chunk)
  let hs := handleLines (st.completed, st.frames) p.1
  { buffer := p.2, completed := hs.1, frames := hs.2 }

/-- Observable outcome of `StreamProcessor.processStream`: frames delivered
to `onChunk`, and the final `completed` flag. -/
structure StreamResult where
  frames : List Json
  completed : Bool

/-- `StreamProcessor.processStream` over a finite chunked stream that ends
normally: chunks are processed in order; when the reader reports `done`
the flag is set to `completed = true` (note the `[DONE]` `break` leaves the
`while` loop running, so later chunks are still processed).  The optional
`accumulate` mode and the error/callback plumbing are not inspected by any
claim and are not modelled. -/
def processStream (chunks : List (List Char)) : StreamResult :=
  let st := chunks.foldl processOneChunk { buffer := [], completed := false, frames := [] }
  { frames := st.frames, completed := true }

/-- A transport outcome the claims call retryable: an HTTP status in
{408, 429, 500, 502, 503, 504}, or a thrown network error. -/
def retryableOutcome (fr : FetchResult) : Bool :=
  match fr with
  | .resp r => decide (r.status ∈ [408, 429, 500, 502, 503, 504])
  | .thrown e => decide (e.cls = .network)

/-- The error a failed attempt surfaces: the classified error of a non-2xx
response, or the thrown error itself. -/
def failureOf (fr : FetchResult) : Err :=
  match fr with
  | .resp r => handleErrorResponse r
  | .thrown e => e

def w1transport : Transport := fun _ _ _ => .resp { status := 500 }

def w5transport : Transport := fun i _ _ =>
  if i = 0 then .resp { status := 500 } else .resp { status := 401 }

def w5err : Nat → Err := fun i =>
  if i = 0 then handleErrorResponse { status := 500 }
  else handleErrorResponse { status := 401 }

/-- A 401 response whose message mentions the model: Authentication wins
over the fallback check. -/
def c2resp : Response :=
  { status := 401,
    jsonBody := some (.obj [("error", .obj [("message", .str "Invalid model")])]) }

def c2transport : Transport := fun _ _ _ => .resp c2resp

def w2resp : Response :=
  { status := 503,
    jsonBody := some (.obj [("error", .obj [("message", .str "Model temporarily unavailable")])]) }

/-- Fails twice with a model-related 503, then echoes the request body. -/
def w2transport : Transport := fun i _ opts =>
  if i ≤ 1 then .resp w2resp
  else .resp { status := 200, jsonBody := parseJson (opts.body.getD "null") }

def w2url : String := "https://api.lunos.tech/v1/chat/completions"

def w2body : String := "\x7b\"model\":\"openai/gpt-4.1\",\"max_tokens\":5\x7d"

def w2fields : List (String × Json) :=
  [("model", .str "openai/gpt-4.1"), ("max_tokens", .num 5)]

def w2err : Nat → Err := fun _ => handleErrorResponse w2resp

def w2opts : RequestInit := { body := some w2body }

/-- The byte/character sequence of C3:
`"data: \x7b\"choices\":[\x7b\"delta\":\x7b\"content\":\"Hi\"\x7d\x7d]\x7d\n\ndata: [DONE]\n\n"`. -/
def sseChars : List Char :=
  "data: \x7b\"choices\":[\x7b\"delta\":\x7b\"content\":\"Hi\"\x7d\x7d]\x7d\n\ndata: [DONE]\n\n".data

/-- The single frame the C3 stream carries. -/
def hiFrame : Json :=
  .obj [("choices", .arr [.obj [("delta", .obj [("content", .str "Hi")])]])]

/-- The payload-carrying line of the C3 stream. -/
def hiLine : List Char :=
  "data: \x7b\"choices\":[\x7b\"delta\":\x7b\"content\":\"Hi\"\x7d\x7d]\x7d".data

/-- The terminal line of the C3 stream. -/
def doneLine : List Char := "data: [DONE]".data

/-- A line that sets `completed` and `break`s the per-chunk line loop: a
non-blank `data: ` line whose payload is the `[DONE]` sentinel. -/
def isDoneLine (l : List Char) : Bool :=
  !(isBlankLine l) && dataMarker.isPrefixOf l && decide (l.drop 6 = doneToken)

/-- The per-line transition without the `break`: used to compare the
faithful per-chunk loop with a plain fold over the delivered line stream
(they agree when nothing after a sentinel line in a chunk would be
processed anyway). -/
def lineStep (s : Bool × List Json) (l : List Char) : Bool × List Json :=
  if isBlankLine l then s
  else if dataMarker.isPrefixOf l then
    (if l.drop 6 = doneToken then (true, s.2)
     else
       match parseJsonChars (l.drop 6) with
       | some j => (s.1, s.2 ++ [j])
       | none => s)
  else s

/-- Within one chunk, every line after the first sentinel line is blank
(so the `break` skips only no-op lines). -/
def postDoneBlank : List (List Char) → Bool
  | [] => true
  | l :: ls => if isDoneLine l then ls.all isBlankLine else postDoneBlank ls

/-- The complete lines of the C3 stream, in order: the payload line, a
blank, the sentinel line, a blank. -/
def sseLines : List (List Char) := [hiLine, [], doneLine, []]

/-- A constant 400 response used to exercise the retry loop on a
BadRequest-classified failure. -/
def resp400 : Response :=
  { status := 400,
    jsonBody := some (.obj [("error", .obj [("message", .str "Invalid request")])]) }

def transport400 : Transport := fun _ _ _ => .resp resp400

/-- Property lookup after a JS property write: the written key reads back
the written value. -/
theorem jsGetField_set_same (fs : List (String × Json)) (k : String) (v : Json) :
    jsGetField (.obj (jsSetField fs k v)) k = some v := by
  induction fs with
  | nil => simp [jsSetField, jsGetField]
  | cons p rest ih =>
    by_cases h : p.1 = k
    · cases p
      simp_all [jsSetField, jsGetField]
    · cases p
      simp_all [jsSetField, jsGetField]

/-- Property lookup after a JS property write: every other key is
unchanged. -/
theorem jsGetField_set_other (fs : List (String × Json)) (k k' : String) (v : Json)
    (hne : k' ≠ k) :
    jsGetField (.obj (jsSetField fs k v)) k' = jsGetField (.obj fs) k' := by
  have hkk : ¬ k = k' := fun h => hne h.symm
  induction fs with
  | nil => simp [jsSetField, jsGetField, hkk]
  | cons p rest ih =>
    obtain ⟨pk, pv⟩ := p
    by_cases h : pk = k
    · subst h
      simp [jsSetField, jsGetField, hkk]
    · by_cases h2 : pk = k'
      · subst h2
        simp [jsSetField, jsGetField, h]
      · simp only [jsSetField, jsGetField, h, if_false] at ih ⊢
        simp [List.find?, h2] at ih ⊢
        exact ih

/-- Header lookup after a JS record write: the written key reads back the
written value. -/
theorem headerLookup_set_same (l : List (String × String)) (k v : String) :
    headerLookup (jsRecordSet l k v) k = some v := by
  induction l with
  | nil => simp [jsRecordSet, headerLookup]
  | cons p rest ih =>
    by_cases h : p.1 = k
    · cases p
      simp_all [jsRecordSet, headerLookup]
    · cases p
      simp_all [jsRecordSet, headerLookup]

/-- C7: with exponential backoff enabled, the delay for 0-based retry
attempt `i` equals `min (baseDelay * 2 ^ i) maxDelay`; instantiated at the
configuration built by `makeRequest` from the default client configuration
(`baseDelay = 1000`, `maxDelay = 10000`), the delays of five retries are
`[1000, 2000, 4000, 8000, 10000]`. -/
theorem claim7_backoff_delay (attempt : Nat) (rc : RetryConfig)
    (h : rc.exponentialBackoff = true) :
    calculateRetryDelay attempt rc = min (rc.baseDelay * 2 ^ attempt) rc.maxDelay ∧
    (List.range 5).map (fun i => calculateRetryDelay i (buildRetryConfig DEFAULT_CONFIG))
      = [1000, 2000, 4000, 8000, 10000] := by
  constructor
  · simp [calculateRetryDelay, h]
  · decide

/-- Witness for C7 at attempt index 4 of the default configuration. -/
theorem claim7_backoff_delay_witness :
    (buildRetryConfig DEFAULT_CONFIG).exponentialBackoff = true ∧
    calculateRetryDelay 4 (buildRetryConfig DEFAULT_CONFIG)
      = min ((buildRetryConfig DEFAULT_CONFIG).baseDelay * 2 ^ 4)
          (buildRetryConfig DEFAULT_CONFIG).maxDelay :=
  ⟨rfl, (claim7_backoff_delay 4 (buildRetryConfig DEFAULT_CONFIG) rfl).1⟩

/-- C4 (amended): the classifier maps a non-2xx response by status code
alone: 401 → Authentication, 429 → RateLimit, 400 → BadRequest,
403 → Forbidden, 404 → NotFound, 500/502/503/504 → ServerError, and any
other status → the generic APIError carrying the raw status.  The 429
retry-after hint is absent exactly when the header is missing or empty;
a present unparseable header yields the present value `NaN` (JS
`parseInt`), not an absent hint.  The classifier always throws (totality
of `handleErrorResponse`), never returning normally. -/
theorem claim4_status_classification (r : Response) (hne : r.isOk = false) :
    (r.status = 401 →
      (handleErrorResponse r).cls = .authentication ∧ (handleErrorResponse r).status = 401) ∧
    (r.status = 429 →
      (handleErrorResponse r).cls = .rateLimit ∧
      (handleErrorResponse r).retryAfter =
        (match r.retryAfterHeader with
         | some h => if h = "" then none else some (parseIntJs h)
         | none => none)) ∧
    (r.status = 400 →
      (handleErrorResponse r).cls = .lunos ∧ (handleErrorResponse r).code = some "BAD_REQUEST") ∧
    (r.status = 403 →
      (handleErrorResponse r).cls = .lunos ∧ (handleErrorResponse r).code = some "FORBIDDEN") ∧
    (r.status = 404 →
      (handleErrorResponse r).cls = .lunos ∧ (handleErrorResponse r).code = some "NOT_FOUND") ∧
    (r.status = 500 ∨ r.status = 502 ∨ r.status = 503 ∨ r.status = 504 →
      (handleErrorResponse r).cls = .lunos ∧
      (handleErrorResponse r).code = some "SERVER_ERROR" ∧
      (handleErrorResponse r).status = r.status) ∧
    (r.status ∉ [401, 429, 400, 403, 404, 500, 502, 503, 504] →
      (handleErrorResponse r).cls = .api ∧ (handleErrorResponse r).status = r.status) := by
  refine ⟨?_, ?_, ?_, ?_, ?_, ?_, ?_⟩
  · intro h
    simp [handleErrorResponse, h]
  · intro h
    simp [handleErrorResponse, h]
  · intro h
    simp [handleErrorResponse, h]
  · intro h
    simp [handleErrorResponse, h]
  · intro h
    simp [handleErrorResponse, h]
  · rintro (h | h | h | h) <;> simp [handleErrorResponse, h]
  · intro h
    simp only [List.mem_cons, List.mem_singleton, not_or] at h
    obtain ⟨h1, h2, h3, h4, h5, h6, h7, h8, h9, _⟩ := h
    simp [handleErrorResponse, h1, h2, h3, h4, h5, h6, h7, h8, h9]

/-- Witness for C4 at a teapot status: 418 is unmapped, so the generic
APIError carries the raw status. -/
theorem claim4_status_classification_witness :
    ({ status := 418 } : Response).isOk = false ∧
    (handleErrorResponse { status := 418 }).cls = .api ∧
    (handleErrorResponse { status := 418 }).status = 418 :=
  ⟨rfl, (claim4_status_classification { status := 418 } rfl).2.2.2.2.2.2 (by decide)⟩

/-- C4 counterexample: for a 429 response whose `retry-after` header does
not parse (`"later"`), the code stores the present value `NaN`
(`retryAfter ? parseInt(retryAfter) : undefined` tests the header string,
not the parse result), while the claim requires the hint to be absent. -/
theorem claim4_counterexample :
    (handleErrorResponse { status := 429, retryAfterHeader := some "later" }).retryAfter
      = some JsNumber.nan ∧
    parseIntJs "later" = JsNumber.nan ∧
    some JsNumber.nan ≠ (none : Option JsNumber) := by
  refine ⟨by decide, by decide, by decide⟩


/-- C6 evaluation: with `maxRetries = 1` and a transport that always
returns HTTP 400, the retry loop makes 2 transport attempts (the
`retryStatusCodes` list built in `makeRequest` is never consulted by
`makeRequestWithRetry`, which retries every error that is not
Authentication/Validation), and only then throws the BadRequest-classified
error.  The claim (and the `retryStatusCodes` documentation) requires a
single attempt. -/
theorem claim6_retries_bad_request :
    (makeRequestWithRetry transport400 "https://api.lunos.tech/v1/x" {} 1 none).2 = 2 ∧
    (makeRequestWithRetry transport400 "https://api.lunos.tech/v1/x" {} 1 none).1
      = .error (handleErrorResponse resp400) ∧
    (handleErrorResponse resp400).code = some "BAD_REQUEST" ∧
    400 ∉ (buildRetryConfig DEFAULT_CONFIG).retryStatusCodes := by
  exact ⟨rfl, rfl, rfl, by decide⟩

/-- C9: the `X-App-ID` header is the per-call identity when truthy, else
the configuration identity when truthy; when neither is truthy the header
assembly returns the plain three-way merge untouched — no default constant
is substituted by the pipeline. -/
theorem claim9_app_id_header (cfg : LunosConfig) (ro : RequestOptions) :
    (∀ a, ro.appId = some a → a ≠ "" →
      headerLookup (buildHeaders cfg ro) "X-App-ID" = some a) ∧
    (∀ b, (ro.appId = none ∨ ro.appId = some "") → cfg.appId = some b → b ≠ "" →
      headerLookup (buildHeaders cfg ro) "X-App-ID" = some b) ∧
    ((ro.appId = none ∨ ro.appId = some "") → (cfg.appId = none ∨ cfg.appId = some "") →
      buildHeaders cfg ro =
        jsSpread (jsSpread [("Content-Type", "application/json"),
          ("Authorization", "Bearer " ++ cfg.apiKey)] cfg.headers) ro.headers) := by
  refine ⟨?_, ?_, ?_⟩
  · intro a ha hne
    simp [buildHeaders, jsOrStr, ha, hne, headerLookup_set_same]
  · intro b hro hcfg hne
    rcases hro with hro | hro <;>
      simp [buildHeaders, jsOrStr, hro, hcfg, hne, headerLookup_set_same]
  · intro hro hcfg
    rcases hro with hro | hro <;> rcases hcfg with hcfg | hcfg <;>
      simp [buildHeaders, jsOrStr, hro, hcfg]

/-- Witness for C9: a per-call identity wins over a configuration
identity. -/
theorem claim9_app_id_header_witness :
    headerLookup
      (buildHeaders { DEFAULT_CONFIG with appId := some "cfg-app" }
        { appId := some "call-app" }) "X-App-ID" = some "call-app" :=
  (claim9_app_id_header { DEFAULT_CONFIG with appId := some "cfg-app" }
    { appId := some "call-app" }).1 "call-app" rfl (by decide)

/-- Retry-loop exhaustion: when every attempt `att..att+rem` fails with an
error that is neither Authentication nor Validation, the loop runs all
`rem + 1` attempts and then either diverts to the single fallback attempt
(truthy fallback model and model-related final error) or rethrows the last
error. -/
theorem goRetry_exhaust (t : Transport) (url : String) (opts : RequestInit)
    (fb : Option String) (e : Nat → Err) :
    ∀ rem att,
      (∀ i, i ≤ rem → attemptOnce (t (att + i) url opts) = .error (e (att + i))) →
      (∀ i, i ≤ rem → isAuthOrVal (e (att + i)) = false) →
      goRetry t url opts fb att rem =
        (if fbTruthy fb && shouldTryFallback (e (att + rem)) then
          ((tryWithFallbackModel t (att + rem + 1) url opts (fb.getD "")).1,
           rem + 1 + (tryWithFallbackModel t (att + rem + 1) url opts (fb.getD "")).2)
        else (.error (e (att + rem)), rem + 1)) := by
  intro rem
  induction rem with
  | zero =>
    intro att hfail hnav
    have h0 := hfail 0 (Nat.le_refl 0)
    have h1 := hnav 0 (Nat.le_refl 0)
    simp only [Nat.add_zero] at h0 h1 ⊢
    rw [goRetry, h0]
    simp [h1]
  | succ rem ih =>
    intro att hfail hnav
    have h0 := hfail 0 (Nat.zero_le _)
    have h1 := hnav 0 (Nat.zero_le _)
    simp only [Nat.add_zero] at h0 h1
    rw [goRetry, h0]
    simp only [h1, Bool.false_eq_true, if_false]
    rw [ih (att + 1)
      (fun i hi => by
        have := hfail (i + 1) (by omega)
        simpa [Nat.add_assoc, Nat.add_comm 1 i] using this)
      (fun i hi => by
        have := hnav (i + 1) (by omega)
        simpa [Nat.add_assoc, Nat.add_comm 1 i] using this)]
    have harith : att + 1 + rem = att + (rem + 1) := by omega
    rw [harith]
    split <;> simp <;> omega

/-- Retry-loop short-circuit: an Authentication/Validation-classified error
at attempt `att + k` (after `k` other failures) is rethrown immediately,
with no further transport attempts, regardless of the remaining budget and
of any configured fallback model. -/
theorem goRetry_authval (t : Transport) (url : String) (opts : RequestInit)
    (fb : Option String) (e : Nat → Err) :
    ∀ k rem att, k ≤ rem →
      (∀ i, i < k → attemptOnce (t (att + i) url opts) = .error (e (att + i))) →
      (∀ i, i < k → isAuthOrVal (e (att + i)) = false) →
      attemptOnce (t (att + k) url opts) = .error (e (att + k)) →
      isAuthOrVal (e (att + k)) = true →
      goRetry t url opts fb att rem = (.error (e (att + k)), k + 1) := by
  intro k
  induction k with
  | zero =>
    intro rem att hk hpre hnav hfin hav
    simp only [Nat.add_zero] at hfin hav ⊢
    rw [goRetry, hfin]
    simp [hav]
  | succ k ih =>
    intro rem att hk hpre hnav hfin hav
    obtain ⟨r, rfl⟩ : ∃ r, rem = r + 1 := ⟨rem - 1, by omega⟩
    have h0 := hpre 0 (by omega)
    have h1 := hnav 0 (by omega)
    simp only [Nat.add_zero] at h0 h1
    rw [goRetry, h0]
    simp only [h1, Bool.false_eq_true, if_false]
    have harith : att + 1 + k = att + (k + 1) := by omega
    rw [ih r (att + 1) (by omega)
      (fun i hi => by
        have := hpre (i + 1) (by omega)
        simpa [Nat.add_assoc, Nat.add_comm 1 i] using this)
      (fun i hi => by
        have := hnav (i + 1) (by omega)
        simpa [Nat.add_assoc, Nat.add_comm 1 i] using this)
      (by rw [harith]; exact hfin)
      (by rw [harith]; exact hav)]
    rw [harith]
    simp
    omega

/-- A retryable transport outcome produces exactly the classified failure
`failureOf`, which is never Authentication/Validation. -/
theorem retryable_attempt (fr : FetchResult) (h : retryableOutcome fr = true) :
    attemptOnce fr = .error (failureOf fr) ∧ isAuthOrVal (failureOf fr) = false := by
  cases fr with
  | thrown e =>
    simp only [retryableOutcome, decide_eq_true_eq] at h
    exact ⟨rfl, by simp [failureOf, isAuthOrVal, h]⟩
  | resp r =>
    simp only [retryableOutcome, decide_eq_true_eq, List.mem_cons,
      List.mem_singleton, List.not_mem_nil, or_false] at h
    have hok : r.isOk = false := by
      rcases h with h | h | h | h | h | h <;> simp [Response.isOk, h]
    refine ⟨by simp [attemptOnce, hok, failureOf], ?_⟩
    rcases h with h | h | h | h | h | h <;>
      simp [failureOf, handleErrorResponse, isAuthOrVal, h]

/-- On a request whose body parses as a JSON object, the fallback rewrite
replaces exactly the body (model substituted, re-serialized) and keeps the
other request fields. -/
theorem fallbackOptions_obj (opts : RequestInit) (F bodyStr : String)
    (fs : List (String × Json))
    (hbody : opts.body = some bodyStr)
    (hparse : parseJson bodyStr = some (.obj fs)) :
    fallbackOptions opts F =
      .ok { opts with body := some (stringifyJson (.obj (jsSetField fs "model" (.str F)))) } := by
  simp [fallbackOptions, hbody, hparse, jsAssignModel, Except.map]

/-- The buffered fallback attempt is one transport call on the rewritten
request; its outcome propagates unchanged. -/
theorem tryWithFallbackModel_obj (t : Transport) (i : Nat) (url : String)
    (opts : RequestInit) (F bodyStr : String) (fs : List (String × Json))
    (hbody : opts.body = some bodyStr)
    (hparse : parseJson bodyStr = some (.obj fs)) :
    tryWithFallbackModel t i url opts F =
      (attemptOnce (t i url
        { opts with body := some (stringifyJson (.obj (jsSetField fs "model" (.str F)))) }), 1) := by
  simp [tryWithFallbackModel, fallbackOptions_obj opts F bodyStr fs hbody hparse]

/-- C1: when every attempt fails retryably (HTTP status in
`\x7b408, 429, 500, 502, 503, 504\x7d` or a thrown network error) and no
fallback model is set, `makeRequestWithRetry` with `maxRetries = N` makes
exactly `N + 1` transport calls and propagates the classified error of the
last attempt. -/
theorem claim1_retry_count (t : Transport) (url : String) (opts : RequestInit) (N : Nat)
    (hfail : ∀ i, i ≤ N → retryableOutcome (t i url opts) = true) :
    makeRequestWithRetry t url opts N none =
      (.error (failureOf (t N url opts)), N + 1) := by
  unfold makeRequestWithRetry
  rw [goRetry_exhaust t url opts none (fun i => failureOf (t i url opts)) N 0
    (fun i hi => by simpa using (retryable_attempt _ (by simpa using hfail i hi)).1)
    (fun i hi => by simpa using (retryable_attempt _ (by simpa using hfail i hi)).2)]
  simp [fbTruthy]

/-- Witness for C1: a transport that always answers HTTP 500 with
`maxRetries = 2` is called 3 times and the ServerError propagates. -/
theorem claim1_retry_count_witness :
    makeRequestWithRetry w1transport "https://api.lunos.tech/v1/chat/completions" {} 2 none
      = (.error (failureOf (w1transport 2 "https://api.lunos.tech/v1/chat/completions" {})), 3) :=
  claim1_retry_count w1transport "https://api.lunos.tech/v1/chat/completions" {} 2
    (fun _ _ => rfl)

/-- C5: an Authentication-classified (HTTP 401) or Validation-classified
failure at any attempt `k` propagates immediately: the call makes exactly
`k + 1` transport calls — the remaining retry budget is not consumed and no
fallback attempt happens even when a fallback model is configured. -/
theorem claim5_short_circuit (t : Transport) (url : String) (opts : RequestInit)
    (N k : Nat) (fb : Option String) (e : Nat → Err)
    (hk : k ≤ N)
    (hpre : ∀ i, i < k → attemptOnce (t i url opts) = .error (e i))
    (hprenav : ∀ i, i < k → isAuthOrVal (e i) = false)
    (hfin : attemptOnce (t k url opts) = .error (e k))
    (hav : (e k).cls = .authentication ∨ (e k).cls = .validation) :
    makeRequestWithRetry t url opts N fb = (.error (e k), k + 1) := by
  unfold makeRequestWithRetry
  have hav' : isAuthOrVal (e k) = true := by
    rcases hav with h | h <;> simp [isAuthOrVal, h]
  have := goRetry_authval t url opts fb e k N 0 hk
    (fun i hi => by simpa using hpre i hi)
    (fun i hi => by simpa using hprenav i hi)
    (by simpa using hfin) (by simpa using hav')
  simpa using this

/-- Witness for C5: a 500 on attempt 0 followed by a 401 on attempt 1
stops after 2 transport calls despite `maxRetries = 5` and a configured
fallback model. -/
theorem claim5_short_circuit_witness :
    makeRequestWithRetry w5transport "https://api.lunos.tech/v1/chat/completions" {} 5
      (some "fallback-model") = (.error (w5err 1), 2) :=
  claim5_short_circuit w5transport "https://api.lunos.tech/v1/chat/completions" {} 5 1
    (some "fallback-model") w5err (by omega)
    (fun i hi => by
      have h0 : i = 0 := by omega
      subst h0
      rfl)
    (fun i hi => by
      have h0 : i = 0 := by omega
      subst h0
      decide)
    rfl (Or.inl (by decide))

/-- C2 (amended): with an effective fallback model `F` (per-call winning
over client-level, last conjunct), a buffered-JSON request body that
parses as a JSON object, and all `N + 1` attempts failing with errors that
are neither Authentication nor Validation, a model-related final error
diverts to exactly one additional transport attempt whose body is the
original object with its `model` field set to `F` (middle conjunct); that
attempt does not retry or re-fallback and its outcome — success value or
failure — propagates unchanged (the result is exactly `attemptOnce` of the
`N + 2`-th transport call).  The claim as frozen is falsified by an
Authentication-classified final error whose message mentions the model
(see the counterexample); the amendment excludes
Authentication/Validation-classified final errors. -/
theorem claim2_fallback_once (t : Transport) (url : String) (opts : RequestInit)
    (N : Nat) (F bodyStr : String) (fs : List (String × Json)) (e : Nat → Err)
    (hF : F ≠ "")
    (hbody : opts.body = some bodyStr)
    (hparse : parseJson bodyStr = some (.obj fs))
    (hfail : ∀ i, i ≤ N → attemptOnce (t i url opts) = .error (e i))
    (hnav : ∀ i, i ≤ N → isAuthOrVal (e i) = false)
    (hmodel : shouldTryFallback (e N) = true) :
    makeRequestWithRetry t url opts N (some F) =
      (attemptOnce (t (N + 1) url
        { opts with body := some (stringifyJson (.obj (jsSetField fs "model" (.str F)))) }),
       N + 2) ∧
    jsGetField (.obj (jsSetField fs "model" (.str F))) "model" = some (.str F) ∧
    (∀ cfgFb : Option String, jsOrStr (some F) cfgFb = some F) := by
  refine ⟨?_, jsGetField_set_same fs "model" (.str F), fun cfgFb => by simp [jsOrStr, hF]⟩
  unfold makeRequestWithRetry
  rw [goRetry_exhaust t url opts (some F) e N 0
    (fun i hi => by simpa using hfail i hi)
    (fun i hi => by simpa using hnav i hi)]
  simp only [Nat.zero_add]
  have hft : fbTruthy (some F) = true := by simp [fbTruthy, hF]
  rw [if_pos (show (fbTruthy (some F) && shouldTryFallback (e N)) = true by
    rw [hft, hmodel]; rfl)]
  rw [show (some F).getD "" = F from rfl]
  rw [tryWithFallbackModel_obj t (N + 1) url opts F bodyStr fs hbody hparse]
  constructor

/-- Witness for C2: two model-related 503 failures with `maxRetries = 1`,
then the single fallback attempt on the rewritten body (3 transport calls
in total). -/
theorem claim2_fallback_once_witness :
    makeRequestWithRetry w2transport w2url w2opts 1 (some "openai/gpt-4.1-mini") =
      (attemptOnce (w2transport 2 w2url
        { w2opts with body := some (stringifyJson (.obj (jsSetField w2fields "model"
            (.str "openai/gpt-4.1-mini")))) }),
       3) ∧
    jsGetField (.obj (jsSetField w2fields "model" (.str "openai/gpt-4.1-mini"))) "model"
      = some (.str "openai/gpt-4.1-mini") ∧
    (∀ cfgFb : Option String, jsOrStr (some "openai/gpt-4.1-mini") cfgFb
      = some "openai/gpt-4.1-mini") :=
  claim2_fallback_once w2transport w2url w2opts 1 "openai/gpt-4.1-mini" w2body w2fields w2err
    (by decide) rfl rfl
    (fun i hi => by
      have h0 : i = 0 ∨ i = 1 := by omega
      rcases h0 with h0 | h0 <;> subst h0 <;> rfl)
    (fun i _ => rfl)
    rfl

/-- C2 counterexample: `maxRetries = 0`, configured fallback model, and a
final 401 whose message is "Invalid model": the message matches the model
keyword set, yet the Authentication check rethrows first — a single
transport call happens and no fallback attempt is made, contradicting the
claimed "exactly one additional transport attempt". -/
theorem claim2_counterexample :
    (makeRequestWithRetry c2transport "https://api.lunos.tech/v1/chat/completions"
        { body := some "\x7b\"model\":\"a\"\x7d" } 0 (some "fallback-model")).2 = 1 ∧
    (makeRequestWithRetry c2transport "https://api.lunos.tech/v1/chat/completions"
        { body := some "\x7b\"model\":\"a\"\x7d" } 0 (some "fallback-model")).1
      = .error (handleErrorResponse c2resp) ∧
    shouldTryFallback (handleErrorResponse c2resp) = true ∧
    fbTruthy (some "fallback-model") = true ∧
    (handleErrorResponse c2resp).cls = .authentication :=
  ⟨rfl, rfl, rfl, rfl, rfl⟩

/-- C10: the fallback attempt (buffered and streaming) reuses the original
URL, method, headers and cancellation signal unchanged, and its
re-serialized body is the original JSON object with only the `model` field
replaced by the fallback model: every other field reads back identically,
and `model` reads back as the fallback model. -/
theorem claim10_fallback_frame (t : Transport) (callIdx : Nat) (url : String)
    (opts : RequestInit) (F bodyStr : String) (fs : List (String × Json))
    (hbody : opts.body = some bodyStr)
    (hparse : parseJson bodyStr = some (.obj fs)) :
    fallbackOptions opts F =
      .ok { opts with body := some (stringifyJson (.obj (jsSetField fs "model" (.str F)))) } ∧
    ({ opts with body := some (stringifyJson (.obj (jsSetField fs "model" (.str F)))) }
        : RequestInit).method = opts.method ∧
    ({ opts with body := some (stringifyJson (.obj (jsSetField fs "model" (.str F)))) }
        : RequestInit).headers = opts.headers ∧
    ({ opts with body := some (stringifyJson (.obj (jsSetField fs "model" (.str F)))) }
        : RequestInit).signal = opts.signal ∧
    tryWithFallbackModel t callIdx url opts F =
      (attemptOnce (t callIdx url
        { opts with body := some (stringifyJson (.obj (jsSetField fs "model" (.str F)))) }), 1) ∧
    tryStreamWithFallbackModel t callIdx url opts F =
      (streamOnce (t callIdx url
        { opts with body := some (stringifyJson (.obj (jsSetField fs "model" (.str F)))) }), 1) ∧
    (∀ k, k ≠ "model" →
      jsGetField (.obj (jsSetField fs "model" (.str F))) k = jsGetField (.obj fs) k) ∧
    jsGetField (.obj (jsSetField fs "model" (.str F))) "model" = some (.str F) := by
  refine ⟨fallbackOptions_obj opts F bodyStr fs hbody hparse, rfl, rfl, rfl,
    tryWithFallbackModel_obj t callIdx url opts F bodyStr fs hbody hparse, ?_,
    fun k hk => jsGetField_set_other fs "model" k (.str F) hk,
    jsGetField_set_same fs "model" (.str F)⟩
  simp [tryStreamWithFallbackModel, fallbackOptions_obj opts F bodyStr fs hbody hparse]

/-- Witness for C10 on a concrete chat request body. -/
theorem claim10_fallback_frame_witness :
    tryWithFallbackModel w2transport 2 w2url w2opts "openai/gpt-4.1-mini" =
      (attemptOnce (w2transport 2 w2url
        { w2opts with body := some (stringifyJson (.obj (jsSetField w2fields "model"
            (.str "openai/gpt-4.1-mini")))) }), 1) ∧
    jsGetField (.obj (jsSetField w2fields "model" (.str "openai/gpt-4.1-mini"))) "max_tokens"
      = jsGetField (.obj w2fields) "max_tokens" :=
  ⟨(claim10_fallback_frame w2transport 2 w2url w2opts "openai/gpt-4.1-mini" w2body w2fields
      rfl rfl).2.2.2.2.1,
   (claim10_fallback_frame w2transport 2 w2url w2opts "openai/gpt-4.1-mini" w2body w2fields
      rfl rfl).2.2.2.2.2.2.1 "max_tokens" (by decide)⟩

theorem linesAndRest_cons (c : Char) (cs : List Char) :
    linesAndRest (c :: cs) =
      (if c = '\n' then ([] :: (linesAndRest cs).1, (linesAndRest cs).2)
       else
         match (linesAndRest cs).1 with
         | [] => ([], c :: (linesAndRest cs).2)
         | l :: ls => ((c :: l) :: ls, (linesAndRest cs).2)) := rfl

theorem linesAndRest_append (a b : List Char) :
    linesAndRest (a ++ b) =
      ((linesAndRest a).1 ++ (linesAndRest ((linesAndRest a).2 ++ b)).1,
       (linesAndRest ((linesAndRest a).2 ++ b)).2) := by
  induction a with
  | nil => simp [linesAndRest]
  | cons c a' ih =>
    rw [List.cons_append, linesAndRest_cons, linesAndRest_cons, ih]
    by_cases hc : c = '\n'
    · simp [hc]
    · simp only [hc, if_false]
      rcases hq : (linesAndRest a').1 with _ | ⟨l, ls⟩
      · simp only [List.nil_append]
        rw [List.cons_append, linesAndRest_cons]
        simp [hc]
      · simp

theorem linesAndRest_no_newline (buf : List Char) (h : '\n' ∉ buf) :
    linesAndRest buf = ([], buf) := by
  induction buf with
  | nil => rfl
  | cons c cs ih =>
    have hc : ¬ c = '\n' := fun hcc => h (hcc ▸ List.mem_cons_self c cs)
    have hcs : '\n' ∉ cs := fun hm => h (List.mem_cons_of_mem c hm)
    rw [linesAndRest_cons, ih hcs]
    simp [hc]

theorem linesAndRest_rest_no_newline (cs : List Char) : '\n' ∉ (linesAndRest cs).2 := by
  induction cs with
  | nil => simp [linesAndRest]
  | cons c cs ih =>
    rw [linesAndRest_cons]
    by_cases hc : c = '\n'
    · simpa [hc] using ih
    · rcases hq : (linesAndRest cs).1 with _ | ⟨l, ls⟩
      · simp only [hc, if_false, hq]
        intro hmem
        rcases List.mem_cons.mp hmem with h1 | h1
        · exact hc h1.symm
        · exact ih h1
      · simpa [hc, hq] using ih

theorem foldl_processOneChunk (chunks : List (List Char)) :
    ∀ (buf : List Char) (cp : Bool) (fs : List Json), '\n' ∉ buf →
      ∃ gs : List (List (List Char)),
        chunks.foldl processOneChunk ⟨buf, cp, fs⟩ =
          ⟨(linesAndRest (buf ++ chunks.flatten)).2,
           (gs.foldl handleLines (cp, fs)).1,
           (gs.foldl handleLines (cp, fs)).2⟩ ∧
        gs.flatten = (linesAndRest (buf ++ chunks.flatten)).1 := by
  induction chunks with
  | nil =>
    intro buf cp fs hbuf
    refine ⟨[], ?_, ?_⟩ <;> simp [linesAndRest_no_newline buf hbuf]
  | cons c cs ih =>
    intro buf cp fs hbuf
    have hstep : processOneChunk ⟨buf, cp, fs⟩ c =
        ⟨(linesAndRest (buf ++ c)).2,
         (handleLines (cp, fs) (linesAndRest (buf ++ c)).1).1,
         (handleLines (cp, fs) (linesAndRest (buf ++ c)).1).2⟩ := rfl
    obtain ⟨gs', hfold, hflat⟩ := ih (linesAndRest (buf ++ c)).2
      (handleLines (cp, fs) (linesAndRest (buf ++ c)).1).1
      (handleLines (cp, fs) (linesAndRest (buf ++ c)).1).2
      (linesAndRest_rest_no_newline (buf ++ c))
    refine ⟨(linesAndRest (buf ++ c)).1 :: gs', ?_, ?_⟩
    · rw [List.foldl_cons, hstep, hfold]
      have hsplit := linesAndRest_append (buf ++ c) cs.flatten
      simp only [List.flatten_cons, ← List.append_assoc, hsplit, List.foldl_cons,
        Prod.mk.eta]
    · have hsplit := linesAndRest_append (buf ++ c) cs.flatten
      simp only [List.flatten_cons, ← List.append_assoc, hsplit, hflat]

theorem foldl_lineStep_blank (ls : List (List Char)) (s : Bool × List Json)
    (h : ls.all isBlankLine = true) : List.foldl lineStep s ls = s := by
  induction ls generalizing s with
  | nil => rfl
  | cons l ls ih =>
    simp only [List.all_cons, Bool.and_eq_true] at h
    rw [List.foldl_cons, show lineStep s l = s from by simp [lineStep, h.1]]
    exact ih s h.2

theorem handleLines_eq_foldl (g : List (List Char)) :
    ∀ s, postDoneBlank g = true → handleLines s g = List.foldl lineStep s g := by
  induction g with
  | nil =>
    intro s _
    obtain ⟨cp, fs⟩ := s
    rfl
  | cons l ls ih =>
    intro s h
    obtain ⟨cp, fs⟩ := s
    by_cases hb : isBlankLine l = true
    · have hpost : postDoneBlank ls = true := by
        have hdl : isDoneLine l = false := by simp [isDoneLine, hb]
        simpa [postDoneBlank, hdl] using h
      rw [show handleLines (cp, fs) (l :: ls) = handleLines (cp, fs) ls from by
        simp [handleLines, hb]]
      rw [List.foldl_cons, show lineStep (cp, fs) l = (cp, fs) from by simp [lineStep, hb]]
      exact ih (cp, fs) hpost
    · by_cases hd : dataMarker.isPrefixOf l = true
      · by_cases hdone : l.drop 6 = doneToken
        · have hdl : isDoneLine l = true := by simp [isDoneLine, hb, hd, hdone]
          have hblank : ls.all isBlankLine = true := by
            simpa [postDoneBlank, hdl] using h
          rw [show handleLines (cp, fs) (l :: ls) = (true, fs) from by
            simp [handleLines, hb, hd, hdone]]
          rw [List.foldl_cons, show lineStep (cp, fs) l = (true, fs) from by
            simp [lineStep, hb, hd, hdone]]
          exact (foldl_lineStep_blank ls (true, fs) hblank).symm
        · have hpost : postDoneBlank ls = true := by
            have hdl : isDoneLine l = false := by simp [isDoneLine, hdone]
            simpa [postDoneBlank, hdl] using h
          cases hp : parseJsonChars (l.drop 6) with
          | some j =>
            rw [show handleLines (cp, fs) (l :: ls) = handleLines (cp, fs ++ [j]) ls from by
              simp [handleLines, hb, hd, hdone, hp]]
            rw [List.foldl_cons, show lineStep (cp, fs) l = (cp, fs ++ [j]) from by
              simp [lineStep, hb, hd, hdone, hp]]
            exact ih _ hpost
          | none =>
            rw [show handleLines (cp, fs) (l :: ls) = handleLines (cp, fs) ls from by
              simp [handleLines, hb, hd, hdone, hp]]
            rw [List.foldl_cons, show lineStep (cp, fs) l = (cp, fs) from by
              simp [lineStep, hb, hd, hdone, hp]]
            exact ih _ hpost
      · have hpost : postDoneBlank ls = true := by
          have hdl : isDoneLine l = false := by simp [isDoneLine, hd]
          simpa [postDoneBlank, hdl] using h
        rw [show handleLines (cp, fs) (l :: ls) = handleLines (cp, fs) ls from by
          simp [handleLines, hb, hd]]
        rw [List.foldl_cons, show lineStep (cp, fs) l = (cp, fs) from by simp [lineStep, hb, hd]]
        exact ih _ hpost

theorem foldl_handleLines_eq (gs : List (List (List Char))) :
    ∀ s, (∀ g, g ∈ gs → postDoneBlank g = true) →
      List.foldl handleLines s gs = List.foldl lineStep s gs.flatten := by
  induction gs with
  | nil => intro s _; rfl
  | cons g gs ih =>
    intro s h
    rw [List.foldl_cons, List.flatten_cons, List.foldl_append,
      ← handleLines_eq_foldl g s (h g (by simp))]
    exact ih _ (fun g' hg' => h g' (by simp [hg']))


theorem postDoneBlank_slice : ∀ i n, postDoneBlank ((sseLines.drop i).take n) = true := by
  have hbound : ∀ i, i ≤ 4 → ∀ n, n ≤ 4 → postDoneBlank ((sseLines.drop i).take n) = true := by
    decide
  intro i n
  have hls : (sseLines.drop i).length = 4 - i := by simp [sseLines]
  by_cases hi : i ≤ 4
  · by_cases hn : n ≤ 4
    · exact hbound i hi n hn
    · have hlen : (sseLines.drop i).length ≤ n := by omega
      rw [List.take_of_length_le hlen]
      have := hbound i hi 4 (by omega)
      have hfull : (sseLines.drop i).length ≤ 4 := by omega
      rw [List.take_of_length_le hfull] at this
      exact this
  · have hni : sseLines.length ≤ i := by
      simp [sseLines]
      omega
    rw [List.drop_eq_nil_of_le hni]
    simp [postDoneBlank]

theorem postDoneBlank_infix (g : List (List Char)) (h : g <:+: sseLines) :
    postDoneBlank g = true := by
  obtain ⟨pre, post, heq⟩ := h
  have hg : g = (sseLines.drop pre.length).take g.length := by
    rw [← heq, List.append_assoc, List.drop_left, List.take_left]
  rw [hg]
  exact postDoneBlank_slice pre.length g.length

/-- C3: for every partition of the C3 byte sequence into chunks (including
splits mid-line and mid-token), `processStream` delivers exactly one frame
to `onChunk`, that frame's `choices[0].delta.content` equals `"Hi"`, and
the result has `completed = true`; the outcome is the same fixed value for
every chunking. -/
theorem claim3_chunking_invariant (chunks : List (List Char))
    (hchunks : chunks.flatten = sseChars) :
    processStream chunks = { frames := [hiFrame], completed := true } ∧
    chunkContent hiFrame = some (.str "Hi") := by
  refine ⟨?_, rfl⟩
  obtain ⟨gs, hfold, hflat⟩ := foldl_processOneChunk chunks [] false [] (by simp)
  rw [hchunks] at hfold hflat
  have hE : linesAndRest sseChars = (sseLines, []) := by decide
  simp only [List.nil_append, hE] at hfold hflat
  have hall : ∀ g, g ∈ gs → postDoneBlank g = true := fun g hg =>
    postDoneBlank_infix g (hflat ▸ List.infix_of_mem_flatten hg)
  have hfe := foldl_handleLines_eq gs (false, []) hall
  rw [hflat] at hfe
  have hconc : List.foldl lineStep (false, ([] : List Json)) sseLines = (true, [hiFrame]) := rfl
  unfold processStream
  rw [hfold]
  rw [show (List.foldl handleLines (false, ([] : List Json)) gs) = (true, [hiFrame]) from
    hfe.trans hconc]

/-- C8 (amended): once a `data: ` line carrying the `[DONE]` sentinel is
observed, the remaining lines of the same chunk are skipped (the `break`):
the state after the chunk's line loop is `completed = true` with exactly
the frames delivered before the sentinel, for any suffix.  The decoder
does not, however, stop reading: parseable payload lines in subsequent
chunks are still delivered (second conjunct; the claim as frozen asserts
the opposite and is falsified by the counterexample). -/
theorem claim8_done_stops_chunk (cp : Bool) (fs : List Json)
    (pre post : List (List Char))
    (hpre : ∀ l, l ∈ pre → isDoneLine l = false) :
    handleLines (cp, fs) (pre ++ doneLine :: post) = (true, (handleLines (cp, fs) pre).2) ∧
    (processStream ["data: [DONE]\n".data, hiLine ++ ['\n']]).frames = [hiFrame] := by
  refine ⟨?_, rfl⟩
  revert hpre
  induction pre generalizing cp fs with
  | nil => intro _; rfl
  | cons l pre ih =>
    intro hpre
    have hl := hpre l (by simp)
    have hrest : ∀ l', l' ∈ pre → isDoneLine l' = false :=
      fun l' h' => hpre l' (by simp [h'])
    rw [List.cons_append]
    by_cases hb : isBlankLine l = true
    · rw [show handleLines (cp, fs) (l :: (pre ++ doneLine :: post))
            = handleLines (cp, fs) (pre ++ doneLine :: post) from by simp [handleLines, hb],
        show handleLines (cp, fs) (l :: pre) = handleLines (cp, fs) pre from by
          simp [handleLines, hb]]
      exact ih cp fs hrest
    · by_cases hd : dataMarker.isPrefixOf l = true
      · have hdone : ¬ l.drop 6 = doneToken := by
          intro hq
          simp [isDoneLine, hb, hd, hq] at hl
        cases hp : parseJsonChars (l.drop 6) with
        | some j =>
          rw [show handleLines (cp, fs) (l :: (pre ++ doneLine :: post))
                = handleLines (cp, fs ++ [j]) (pre ++ doneLine :: post) from by
              simp [handleLines, hb, hd, hdone, hp],
            show handleLines (cp, fs) (l :: pre) = handleLines (cp, fs ++ [j]) pre from by
              simp [handleLines, hb, hd, hdone, hp]]
          exact ih cp (fs ++ [j]) hrest
        | none =>
          rw [show handleLines (cp, fs) (l :: (pre ++ doneLine :: post))
                = handleLines (cp, fs) (pre ++ doneLine :: post) from by
              simp [handleLines, hb, hd, hdone, hp],
            show handleLines (cp, fs) (l :: pre) = handleLines (cp, fs) pre from by
              simp [handleLines, hb, hd, hdone, hp]]
          exact ih cp fs hrest
      · rw [show handleLines (cp, fs) (l :: (pre ++ doneLine :: post))
              = handleLines (cp, fs) (pre ++ doneLine :: post) from by
            simp [handleLines, hb, hd],
          show handleLines (cp, fs) (l :: pre) = handleLines (cp, fs) pre from by
            simp [handleLines, hb, hd]]
        exact ih cp fs hrest

/-- C8 counterexample: a chunk `"data: [DONE]\n"` followed by a chunk
carrying a parseable payload line still delivers that later frame — the
`break` only leaves the per-chunk line loop, not the `while` read loop —
contradicting the claimed "delivers no further frame ... in subsequent
chunks". -/
theorem claim8_counterexample :
    (processStream ["data: [DONE]\n".data, hiLine ++ ['\n']]).frames = [hiFrame] ∧
    [hiFrame] ≠ ([] : List Json) := by
  exact ⟨rfl, by simp⟩

/-- Witness for C3: a four-chunk split that cuts the payload line, the
JSON token, and the `[DONE]` sentinel. -/
theorem claim3_chunking_invariant_witness :
    processStream ["da".data,
      "ta: \x7b\"choices\":[\x7b\"delta\":\x7b\"con".data,
      "tent\":\"Hi\"\x7d\x7d]\x7d\n\ndata: [DO".data,
      "NE]\n\n".data] = { frames := [hiFrame], completed := true } ∧
    chunkContent hiFrame = some (.str "Hi") :=
  claim3_chunking_invariant
    ["da".data,
     "ta: \x7b\"choices\":[\x7b\"delta\":\x7b\"con".data,
     "tent\":\"Hi\"\x7d\x7d]\x7d\n\ndata: [DO".data,
     "NE]\n\n".data] (by decide)

/-- Witness for C8: a payload line before the sentinel is delivered, a
payload line after it in the same chunk is dropped. -/
theorem claim8_done_stops_chunk_witness :
    handleLines (false, []) ([hiLine] ++ doneLine :: [hiLine])
      = (true, (handleLines (false, []) [hiLine]).2) ∧
    (processStream ["data: [DONE]\n".data, hiLine ++ ['\n']]).frames = [hiFrame] :=
  claim8_done_stops_chunk false [] [hiLine] [hiLine] (by decide)
